import Mathlib

/-!
Verification of the Find image-indexing backend: a shallow embedding of the
analysis pipeline (`app/workers/jobs.py`), the clusterer
(`app/ml/clusterer.py`), the search endpoint (`app/routers/search.py`) and
the gallery deletion endpoint (`app/routers/gallery.py`), with theorems
checking the specification's claims about them.

Embedding conventions:
* numpy float vectors become `Fin n → ℝ`; `np.linalg.norm` becomes
  `Real.sqrt` of the dot product;
* external stages (model inference, storage, EXIF parsing) are fields of an
  `Env` record returning `Except String α` — `.error e` models the stage
  raising an exception whose `str(e)` is `e`;
* each `db.commit()` of the analysis job appends a snapshot of the media
  record to a trace list, so "committed before the exception propagates"
  is visible in the job's return value;
* the sklearn HDBSCAN call is an oracle parameter `hdbscan`; everything the
  repository computes around it is embedded faithfully.
-/

namespace Find

/-- Embedding vectors: fixed-dimension real vectors. -/
abbrev Vec (n : Nat) := Fin n → ℝ

/-- Dot product, `np.dot`. -/
noncomputable def dot {n : Nat} (u v : Vec n) : ℝ := ∑ i, u i * v i

/-- Euclidean norm, `np.linalg.norm`. -/
noncomputable def norm {n : Nat} (v : Vec n) : ℝ := Real.sqrt (dot v v)

/-- `v / np.linalg.norm(v)`, elementwise division by the norm. -/
noncomputable def normalize {n : Nat} (v : Vec n) : Vec n :=
  fun i => v i / norm v

theorem dot_self_nonneg {n : Nat} (v : Vec n) : 0 ≤ dot v v :=
  Finset.sum_nonneg fun _ _ => mul_self_nonneg _

theorem dot_self_eq_zero_iff {n : Nat} (v : Vec n) :
    dot v v = 0 ↔ v = fun _ => 0 := by
  constructor
  · intro h
    funext i
    have h0 : ∀ j ∈ Finset.univ, (0:ℝ) ≤ v j * v j := fun j _ => mul_self_nonneg _
    have hz := (Finset.sum_eq_zero_iff_of_nonneg h0).mp h i (Finset.mem_univ i)
    exact mul_self_eq_zero.mp hz
  · intro h
    rw [h]
    simp [dot]

theorem dot_self_pos {n : Nat} (v : Vec n) (hv : v ≠ fun _ => 0) :
    0 < dot v v :=
  lt_of_le_of_ne (dot_self_nonneg v)
    (fun h => hv ((dot_self_eq_zero_iff v).mp h.symm))

/-- Normalizing a nonzero vector yields a unit-norm vector. -/
theorem norm_normalize {n : Nat} (v : Vec n) (hv : v ≠ fun _ => 0) :
    norm (normalize v) = 1 := by
  have hD : 0 < dot v v := dot_self_pos v hv
  have hNpos : 0 < norm v := Real.sqrt_pos.mpr hD
  have key : dot (normalize v) (normalize v) = 1 := by
    have h1 : dot (normalize v) (normalize v)
        = ∑ i, (v i * v i) / (norm v * norm v) := by
      unfold dot normalize
      exact Finset.sum_congr rfl fun i _ => by ring
    rw [h1, ← Finset.sum_div]
    have h2 : norm v * norm v = dot v v := Real.mul_self_sqrt (le_of_lt hD)
    rw [h2]
    exact div_self (ne_of_gt hD)
  show Real.sqrt (dot (normalize v) (normalize v)) = 1
  rw [key, Real.sqrt_one]

/-! ## Data model (`app/models`, reduced to the fields the pipeline touches) -/

/-- Media processing state. -/
inductive Status where
  | pending
  | processing
  | indexed
  | failed
deriving DecidableEq, Repr

/-- One detected object (`{"class": ..., "confidence": ..., "bbox": ...}`). -/
structure DetObj where
  cls : String
  confidence : ℝ
  bbox : List ℝ

/-- One OCR text block. -/
structure TextBlock where
  text : String
  confidence : ℝ
  bbox : List ℝ

/-- The `metadata` dict built by `analyze_image`. -/
structure Metadata where
  objects : List DetObj
  caption : String
  ocr_text : String
  text_blocks : List TextBlock

/-- A `Media` row, with the fields the analysis job reads or writes. -/
structure Media (n : Nat) where
  id : Nat
  filename : String
  status : Status
  width : Option Nat
  height : Option Nat
  exif_json : Option (List (String × String))
  metadata_json : Option Metadata
  vector : Option (Vec n)
  cluster_id : Option Int
  error_message : Option String
  processed_at : Bool
  liked : Bool

/-- A `Cluster` row. -/
structure ClusterRec (n : Nat) where
  id : Int
  cluster_type : String
  member_ids : List Nat
  member_count : Nat
  centroid_vector : Vec n

/-- The record store: media rows and cluster rows. -/
structure DB (n : Nat) where
  media : List (Media n)
  clusters : List (ClusterRec n)

/-! ## Analysis pipeline (`app/workers/jobs.py`, `analyze_image`) -/

/-- Width and height derived from the decoded image. -/
structure ImgInfo where
  width : Nat
  height : Nat

/-- The external stages the job calls, each able to raise (`.error`).
`decode` covers storage download, `Image.open`, RGB conversion and
`image.size`; `ocr` covers both `extract_text` and
`extract_text_with_boxes`, which sit in one `try` block. -/
structure Env (n : Nat) where
  decode : Except String ImgInfo
  exif : Except String (List (String × String))
  detect : Except String (List DetObj)
  captionStage : Except String String
  ocr : Except String (String × List TextBlock)
  embed_image : Except String (Vec n)
  embed_text : String → Except String (Vec n)

/-- Outcome of running the job body: normal return, a propagated
exception, or the early return when the media row is missing. -/
inductive JobResult where
  | success
  | raised (e : String)
  | skipped
deriving DecidableEq, Repr

/-- Sorted unique class names: `sorted(list(set(object_names)))`. -/
def sortedUniqueNames (names : List String) : List String :=
  List.insertionSort (· ≤ ·) names.dedup

/-- The `objects_text` string built in the embedding step of
`analyze_image` (jobs.py lines 115-122). -/
def objects_text (objects : List DetObj) : String :=
  let object_names := objects.map (·.cls)
  if object_names.isEmpty then ""
  else "detected objects: " ++ String.intercalate ", " (sortedUniqueNames object_names)

/-- The `metadata` dict after the three optional stages, each failure
replaced by its empty default (jobs.py lines 69-103). -/
def metadataOf {n : Nat} (env : Env n) : Metadata where
  objects := match env.detect with
    | .ok o => o
    | .error _ => []
  caption := match env.captionStage with
    | .ok c => c
    | .error _ => ""
  ocr_text := match env.ocr with
    | .ok p => p.1
    | .error _ => ""
  text_blocks := match env.ocr with
    | .ok p => p.2
    | .error _ => []

/-- Step 4 of the job: the three embedding calls and the hybrid fusion
(jobs.py lines 105-132). Any failing call aborts the step. -/
noncomputable def embedStep {n : Nat} (env : Env n) (md : Metadata) :
    Except String (Vec n) :=
  match env.embed_image with
  | .error e => .error e
  | .ok image_embedding =>
    match env.embed_text md.caption with
    | .error e => .error e
    | .ok caption_embedding =>
      match env.embed_text (objects_text md.objects) with
      | .error e => .error e
      | .ok objects_embedding =>
        .ok (normalize (fun i =>
          (image_embedding i + caption_embedding i + objects_embedding i) / 3))

/-- The worker job `analyze_image`. `found` is the result of the
media query; the returned list is the sequence of committed snapshots of
the record, in commit order. -/
noncomputable def analyze_image {n : Nat} (env : Env n) (found : Option (Media n)) :
    List (Media n) × JobResult :=
  match found with
  | none => ([], .skipped)
  | some media0 =>
    let media1 := { media0 with status := Status.processing }
    match env.decode with
    | .error e =>
      ([media1, { media1 with status := Status.failed, error_message := some e }],
        .raised e)
    | .ok img =>
      let media2 := { media1 with width := some img.width, height := some img.height }
      let media3 := match env.exif with
        | .ok ex => { media2 with exif_json := some ex }
        | .error _ => { media2 with exif_json := some [] }
      let md := metadataOf env
      match embedStep env md with
      | .error e =>
        ([media1, { media3 with status := Status.failed, error_message := some e }],
          .raised e)
      | .ok hybrid_vector =>
        ([media1,
          { media3 with
              vector := some hybrid_vector
              metadata_json := some md
              status := Status.indexed
              processed_at := true }],
          .success)

/-! ## Clusterer (`app/ml/clusterer.py`) -/

/-- A value of the `cluster_info` dict: an integer statistic or the
`cluster_sizes` sub-dict. -/
inductive InfoVal where
  | num (z : Int)
  | dict (d : List (Int × Int))
deriving DecidableEq, Repr

/-- The `cluster_info` dict, as an ordered key/value list. -/
abbrev ClusterInfo := List (String × InfoVal)

/-- Configured `MIN_CLUSTER_SIZE` (`app/core/config.py`). -/
def MIN_CLUSTER_SIZE : Nat := 2

/-- The `cluster_sizes` dict: one entry per non-noise label, holding that
label's member count. Python iterates `set(cluster_labels)`; the
iteration order is irrelevant to the claims, dedup order is used here. -/
def clusterSizes (labels : List Int) : List (Int × Int) :=
  (labels.dedup.filter (fun l => l ≠ -1)).map (fun l => (l, (labels.count l : Int)))

/-- `ImageClusterer.cluster`: small batches are all noise with a reduced
info dict; otherwise HDBSCAN (the oracle `hdbscan`) labels the batch and
the statistics are computed from the labels. -/
def cluster {n : Nat} (hdbscan : List (Vec n) → List Int)
    (min_cluster_size : Nat) (embeddings : List (Vec n)) :
    List Int × ClusterInfo :=
  if embeddings.length < min_cluster_size then
    (List.replicate embeddings.length (-1),
      [("n_clusters", InfoVal.num 0),
       ("noise_points", InfoVal.num embeddings.length)])
  else
    let cluster_labels := hdbscan embeddings
    let n_clusters : Int :=
      (cluster_labels.dedup.length : Int) - (if (-1) ∈ cluster_labels then 1 else 0)
    let n_noise : Int := cluster_labels.count (-1)
    (cluster_labels,
      [("n_clusters", InfoVal.num n_clusters),
       ("noise_points", InfoVal.num n_noise),
       ("total_points", InfoVal.num embeddings.length),
       ("cluster_sizes", InfoVal.dict (clusterSizes cluster_labels))])

/-- `ImageClusterer.compute_centroids`: for each non-noise label, the
unit-normalized mean of that label's member embeddings. -/
noncomputable def compute_centroids {n : Nat} (embeddings : List (Vec n))
    (labels : List Int) : List (Int × Vec n) :=
  (labels.dedup.filter (fun l => l ≠ -1)).map (fun l =>
    let members := (embeddings.zip labels).filterMap
      (fun q => if q.2 = l then some q.1 else none)
    (l, normalize (fun i => (members.map (fun v => v i)).sum / (members.length : ℝ))))

/-- One step of the best-similarity fold in `assign_to_cluster`. -/
noncomputable def assignStep {n : Nat} (e : Vec n) (b : ℝ × Int) (p : Int × Vec n) :
    ℝ × Int :=
  if b.1 < dot e p.2 then (dot e p.2, p.1) else b

/-- `ImageClusterer.assign_to_cluster`: normalize the query, track the
best (similarity, label) pair starting from `(-1, -1)`, return -1 when
the best similarity is below the threshold. The Python default for
`threshold` is 0.7. -/
noncomputable def assign_to_cluster {n : Nat} (embedding : Vec n)
    (centroids : List (Int × Vec n)) (threshold : ℝ) : Int :=
  if centroids.isEmpty then -1
  else
    let e := normalize embedding
    let best := centroids.foldl (assignStep e) (-1, -1)
    if best.1 < threshold then -1 else best.2

/-! ## Batch clustering job (`app/workers/jobs.py`, `cluster_images`) -/

/-- The indexed-with-embedding media the clustering job operates on. -/
def indexedWithVector {n : Nat} (db : DB n) : List (Media n) :=
  db.media.filter (fun m => decide (m.status = Status.indexed) && m.vector.isSome)

/-- The embeddings array extracted from the filtered media list. -/
noncomputable def embeddingsOf {n : Nat} (db : DB n) : List (Vec n) :=
  (indexedWithVector db).map (fun m => m.vector.getD (fun _ => 0))

/-- The (media, label) pair the job associates with record `m`: the entry
of `zip(media_list, labels)` whose media id matches. -/
def assignmentFor {n : Nat} (media_list : List (Media n)) (labels : List Int)
    (m : Media n) : Option (Media n × Int) :=
  (media_list.zip labels).find? (fun p => p.1.id == m.id)

/-- The per-record update of the label-assignment loop: a non-noise label
overwrites `cluster_id`; noise (or an unprocessed record) leaves the
record untouched. -/
def assign_update {n : Nat} (media_list : List (Media n)) (labels : List Int)
    (m : Media n) : Media n :=
  match assignmentFor media_list labels m with
  | some p => if p.2 ≠ -1 then { m with cluster_id := some p.2 } else m
  | none => m

/-- Member ids of cluster `cid`:
`[media_ids[i] for i, label in enumerate(labels) if label == cid]`. -/
def clusterMembers (media_ids : List Nat) (labels : List Int) (cid : Int) :
    List Nat :=
  (media_ids.zip labels).filterMap (fun q => if q.2 = cid then some q.1 else none)

/-- Create-or-update of one cluster row from one centroid entry. -/
def upsertCluster {n : Nat} (media_ids : List Nat) (labels : List Int)
    (cs : List (ClusterRec n)) (p : Int × Vec n) : List (ClusterRec n) :=
  let member_ids := clusterMembers media_ids labels p.1
  if cs.any (fun c => c.id == p.1) then
    cs.map (fun c =>
      if c.id = p.1 then
        { c with
            member_ids := member_ids
            member_count := member_ids.length
            centroid_vector := p.2 }
      else c)
  else
    cs ++ [{ id := p.1, cluster_type := "general", member_ids := member_ids,
             member_count := member_ids.length, centroid_vector := p.2 }]

/-- The background job `cluster_images`: fewer than 5 usable records is an
early return with no writes; otherwise labels are assigned (non-noise
only) and cluster rows are created or overwritten from the centroids. -/
noncomputable def cluster_images {n : Nat} (hdbscan : List (Vec n) → List Int)
    (min_cluster_size : Nat) (db : DB n) : DB n × Option ClusterInfo :=
  let media_list := indexedWithVector db
  if media_list.length < 5 then (db, none)
  else
    let embeddings := embeddingsOf db
    let media_ids := media_list.map (fun m => m.id)
    let res := cluster hdbscan min_cluster_size embeddings
    let labels := res.1
    let centroids := compute_centroids embeddings labels
    ({ media := db.media.map (assign_update media_list labels)
       clusters := centroids.foldl (upsertCluster media_ids labels) db.clusters },
      some res.2)

/-! ## Search endpoint (`app/routers/search.py`) -/

/-- pgvector cosine distance, `vector <=> query`. -/
noncomputable def cosineDistance {n : Nat} (u v : Vec n) : ℝ :=
  1 - dot u v / (norm u * norm v)

/-- The similarity the SQL computes: `1 - (vector <=> query)`. -/
noncomputable def similarity {n : Nat} (u v : Vec n) : ℝ :=
  1 - cosineDistance u v

/-- The hard-coded similarity threshold of the search endpoint. -/
noncomputable def search_threshold : ℝ := 0.45

/-- Descending-similarity order on scored rows. -/
def simDesc (n : Nat) : Media n × ℝ → Media n × ℝ → Prop :=
  fun a b => b.2 ≤ a.2

noncomputable instance {n : Nat} : DecidableRel (simDesc n) :=
  fun a b => inferInstanceAs (Decidable (b.2 ≤ a.2))

instance {n : Nat} : IsTotal (Media n × ℝ) (simDesc n) :=
  ⟨fun a b => le_total b.2 a.2⟩

instance {n : Nat} : IsTrans (Media n × ℝ) (simDesc n) :=
  ⟨fun _ _ _ h1 h2 => le_trans h2 h1⟩

/-- `search_images`: keep indexed rows with a stored vector, score them,
keep scores strictly above the threshold, order by similarity descending,
return at most `limit` rows. -/
noncomputable def search_images {n : Nat} (db : List (Media n)) (qv : Vec n)
    (limit : Nat) : List (Media n × ℝ) :=
  let ranked := db.filterMap (fun m =>
    match m.vector with
    | some v => if m.status = Status.indexed then some (m, similarity qv v) else none
    | none => none)
  let kept := ranked.filter (fun p => decide (search_threshold < p.2))
  (List.insertionSort (simDesc n) kept).take limit

/-! ## Gallery deletion endpoint (`app/routers/gallery.py`, `delete_image`) -/

/-- `delete_image`: 404 when the row is missing, 500 when storage deletion
fails (no DB change), otherwise remove the row and pull its id out of
every cluster's member list, resetting that cluster's count. -/
def delete_image {n : Nat} (db : DB n) (storageOk : Bool) (media_id : Nat) :
    DB n × Nat :=
  match db.media.find? (fun m => m.id == media_id) with
  | none => (db, 404)
  | some _ =>
    if !storageOk then (db, 500)
    else
      ({ media := db.media.eraseP (fun m => m.id == media_id)
         clusters := db.clusters.map (fun c =>
           if media_id ∈ c.member_ids then
             let pruned := c.member_ids.filter (fun x => x ≠ media_id)
             { c with member_ids := pruned, member_count := pruned.length }
           else c) },
        200)

/-- The member-count invariant of the Cluster table. -/
def InvDB {n : Nat} (db : DB n) : Prop :=
  ∀ c ∈ db.clusters, c.member_count = c.member_ids.length

/-- The spec's wording of the objects string: comma-joined sorted unique
class names. Stated with dedup AFTER sorting, to compare against the
code's set-then-sort order. -/
def objects_description_spec (objects : List DetObj) : String :=
  let names := objects.map (·.cls)
  if names.isEmpty then ""
  else "detected objects: " ++
    String.intercalate ", " ((List.insertionSort (· ≤ ·) names).dedup)

/-! ## Concrete inputs used by the witness theorems -/

/-- The all-ones vector in dimension 1. -/
def wOne : Vec 1 := fun _ => 1

/-- The all-zeros vector in dimension 1. -/
def wZero : Vec 1 := fun _ => 0

/-- The minus-one vector in dimension 1. -/
def wNegOne : Vec 1 := fun _ => -1

/-- A pending media row as created at upload time. -/
def wMedia0 : Media 1 where
  id := 1
  filename := "a.jpg"
  status := Status.pending
  width := none
  height := none
  exif_json := none
  metadata_json := none
  vector := none
  cluster_id := none
  error_message := none
  processed_at := false
  liked := false

/-- An environment in which every stage succeeds. -/
def wEnvOk : Env 1 where
  decode := .ok ⟨10, 20⟩
  exif := .ok [("Make", "X")]
  detect := .ok [⟨"cat", 1, []⟩, ⟨"dog", 1, []⟩, ⟨"cat", 1, []⟩]
  captionStage := .ok "a cat and a dog"
  ocr := .ok ("", [])
  embed_image := .ok wOne
  embed_text := fun _ => .ok wOne

/-- An environment in which every optional stage raises but decode and
the embedder succeed. -/
def wEnvFail : Env 1 where
  decode := .ok ⟨10, 20⟩
  exif := .error "exif boom"
  detect := .error "yolo boom"
  captionStage := .error "blip boom"
  ocr := .error "ocr boom"
  embed_image := .ok wOne
  embed_text := fun _ => .ok wOne

/-- An environment in which the embedding stage raises. -/
def wEnvEmbedFail : Env 1 where
  decode := .ok ⟨10, 20⟩
  exif := .ok []
  detect := .ok []
  captionStage := .ok "c"
  ocr := .ok ("", [])
  embed_image := .error "CUDA out of memory"
  embed_text := fun _ => .ok wOne

/-- An indexed media row with id `i` and a stored unit vector. -/
def mkIndexed (i : Nat) : Media 1 :=
  { wMedia0 with id := i, status := Status.indexed, vector := some wOne }

/-- A store with four indexed rows: below the clustering job's floor. -/
def db4 : DB 1 where
  media := [mkIndexed 1, mkIndexed 2, mkIndexed 3, mkIndexed 4]
  clusters := []

/-- A store with five indexed rows; row 5 carries a stale cluster id. -/
def db5 : DB 1 where
  media := [mkIndexed 1, mkIndexed 2, mkIndexed 3, mkIndexed 4,
            { mkIndexed 5 with cluster_id := some 9 }]
  clusters := []

/-- An HDBSCAN oracle putting the first four rows in cluster 0 and
marking the fifth as noise. -/
def wHdbscan5 : List (Vec 1) → List Int := fun _ => [0, 0, 0, 0, -1]

/-- An HDBSCAN oracle that never runs in the small-batch cases. -/
def wHdbscanEmpty : List (Vec 1) → List Int := fun _ => []

/-- A store for the deletion witness: one media row (id 3) and one
cluster whose member list contains it. -/
def dbDel : DB 1 where
  media := [{ wMedia0 with id := 3 }]
  clusters := [{ id := 0, cluster_type := "general", member_ids := [3, 4, 5],
                 member_count := 3, centroid_vector := wOne }]

/-! ## Theorems: analysis pipeline -/

/-- Shape of a successful run: decode ok and embedding ok produce exactly
two commits, the second being the fully indexed record. -/
theorem analyze_image_ok_eq {n : Nat} (env : Env n) (m0 : Media n)
    (img : ImgInfo) (hv : Vec n)
    (hdec : env.decode = .ok img)
    (hemb : embedStep env (metadataOf env) = .ok hv) :
    analyze_image env (some m0) =
      ([{ m0 with status := Status.processing },
        { m0 with
            status := Status.indexed
            width := some img.width
            height := some img.height
            exif_json := some (match env.exif with | .ok ex => ex | .error _ => [])
            metadata_json := some (metadataOf env)
            vector := some hv
            processed_at := true }], JobResult.success) := by
  cases hexif : env.exif with
  | ok ex => simp [analyze_image, hdec, hemb, hexif]
  | error e => simp [analyze_image, hdec, hemb, hexif]

/-- Shape of an embedding-stage failure: two commits, the second being the
failed record carrying the exception text. -/
theorem analyze_image_embed_error_eq {n : Nat} (env : Env n) (m0 : Media n)
    (img : ImgInfo) (e : String)
    (hdec : env.decode = .ok img)
    (hemb : embedStep env (metadataOf env) = .error e) :
    analyze_image env (some m0) =
      ([{ m0 with status := Status.processing },
        { m0 with
            status := Status.failed
            width := some img.width
            height := some img.height
            exif_json := some (match env.exif with | .ok ex => ex | .error _ => [])
            error_message := some e }], JobResult.raised e) := by
  cases hexif : env.exif with
  | ok ex => simp [analyze_image, hdec, hemb, hexif]
  | error e2 => simp [analyze_image, hdec, hemb, hexif]

/-- C1: for every image job that reaches the embedding step, with the
three component embeddings independently unit-normalized and the fused
mean nonzero, the stored embedding is `(v_image + v_caption + v_objects)/3`
re-normalized to unit length, and the indexed record's stored vector has
norm exactly 1. -/
theorem hybrid_embedding_unit_norm {n : Nat} (env : Env n) (m0 : Media n)
    (img : ImgInfo) (v1 v2 v3 : Vec n)
    (hdec : env.decode = .ok img)
    (h1 : env.embed_image = .ok v1)
    (h2 : env.embed_text (metadataOf env).caption = .ok v2)
    (h3 : env.embed_text (objects_text (metadataOf env).objects) = .ok v3)
    (hu1 : norm v1 = 1) (hu2 : norm v2 = 1) (hu3 : norm v3 = 1)
    (hmean : (fun i => (v1 i + v2 i + v3 i) / 3) ≠ (fun _ => (0:ℝ))) :
    (analyze_image env (some m0)).2 = JobResult.success ∧
    ∃ mf, (analyze_image env (some m0)).1.getLast? = some mf ∧
      mf.status = Status.indexed ∧
      mf.vector = some (normalize (fun i => (v1 i + v2 i + v3 i) / 3)) ∧
      norm (normalize (fun i => (v1 i + v2 i + v3 i) / 3)) = 1 := by
  have hemb : embedStep env (metadataOf env)
      = .ok (normalize (fun i => (v1 i + v2 i + v3 i) / 3)) := by
    unfold embedStep
    rw [h1, h2, h3]
  rw [analyze_image_ok_eq env m0 img _ hdec hemb]
  exact ⟨rfl, _, rfl, rfl, rfl, norm_normalize _ hmean⟩

/-- C1 witness: in the all-stages-succeed environment the job succeeds
and the stored fused vector has norm 1. -/
theorem hybrid_embedding_unit_norm_witness :
    (analyze_image wEnvOk (some wMedia0)).2 = JobResult.success ∧
    norm (normalize (fun i => (wOne i + wOne i + wOne i) / 3)) = 1 := by
  have hn : norm wOne = 1 := by
    simp [norm, dot, wOne]
  have hm : (fun i => (wOne i + wOne i + wOne i) / 3) ≠ (fun _ => (0:ℝ)) := by
    intro h
    have h0 := congrFun h 0
    norm_num [wOne] at h0
  have h := hybrid_embedding_unit_norm wEnvOk wMedia0 ⟨10, 20⟩ wOne wOne wOne
    rfl rfl rfl rfl hn hn hn hm
  obtain ⟨hs, _, _, _, _, hnorm⟩ := h
  exact ⟨hs, hnorm⟩

/-- C2: when the embedding stage raises, the job re-raises the same
exception, and the final committed snapshot of the record is `failed`
with the exception text recorded verbatim. -/
theorem embed_failure_marks_failed_committed {n : Nat} (env : Env n)
    (m0 : Media n) (img : ImgInfo) (e : String)
    (hdec : env.decode = .ok img)
    (hemb : embedStep env (metadataOf env) = .error e) :
    (analyze_image env (some m0)).2 = JobResult.raised e ∧
    ∃ mf, (analyze_image env (some m0)).1.getLast? = some mf ∧
      mf ∈ (analyze_image env (some m0)).1 ∧
      mf.status = Status.failed ∧
      mf.error_message = some e := by
  rw [analyze_image_embed_error_eq env m0 img e hdec hemb]
  refine ⟨rfl, _, rfl, ?_, rfl, rfl⟩
  simp

/-- C2 witness: with the embedder raising "CUDA out of memory", the job
re-raises it and the last committed snapshot is failed with that text. -/
theorem embed_failure_marks_failed_committed_witness :
    (analyze_image wEnvEmbedFail (some wMedia0)).2
      = JobResult.raised "CUDA out of memory" ∧
    ((analyze_image wEnvEmbedFail (some wMedia0)).1.getLast?.map
      Media.error_message) = some (some "CUDA out of memory") := by
  have h := embed_failure_marks_failed_committed wEnvEmbedFail wMedia0
    ⟨10, 20⟩ "CUDA out of memory" rfl rfl
  obtain ⟨hs, mf, hlast, _, _, herr⟩ := h
  refine ⟨hs, ?_⟩
  rw [hlast]
  simp [herr]

/-- C3: when optional stages (EXIF, detection, captioning, OCR) raise but
decode and embedding succeed, each failed stage's contribution is its
empty default and the job still indexes the record. -/
theorem optional_stage_failures_default_and_indexed {n : Nat} (env : Env n)
    (m0 : Media n) (img : ImgInfo) (hv : Vec n)
    (hdec : env.decode = .ok img)
    (hemb : embedStep env (metadataOf env) = .ok hv) :
    (analyze_image env (some m0)).2 = JobResult.success ∧
    ∃ mf, (analyze_image env (some m0)).1.getLast? = some mf ∧
      mf.status = Status.indexed ∧
      mf.metadata_json = some (metadataOf env) ∧
      (∀ e, env.exif = .error e → mf.exif_json = some []) ∧
      (∀ e, env.detect = .error e → (metadataOf env).objects = []) ∧
      (∀ e, env.captionStage = .error e → (metadataOf env).caption = "") ∧
      (∀ e, env.ocr = .error e →
        (metadataOf env).ocr_text = "" ∧ (metadataOf env).text_blocks = []) := by
  rw [analyze_image_ok_eq env m0 img hv hdec hemb]
  refine ⟨rfl, _, rfl, rfl, rfl, ?_, ?_, ?_, ?_⟩
  · intro e he
    simp [he]
  · intro e he
    simp [metadataOf, he]
  · intro e he
    simp [metadataOf, he]
  · intro e he
    simp [metadataOf, he]

/-- C3 witness: with all four optional stages raising, the job still
succeeds, and the final record carries the empty defaults. -/
theorem optional_stage_failures_default_and_indexed_witness :
    (analyze_image wEnvFail (some wMedia0)).2 = JobResult.success ∧
    (metadataOf wEnvFail).objects = [] ∧
    (metadataOf wEnvFail).caption = "" ∧
    (metadataOf wEnvFail).ocr_text = "" := by
  have h := optional_stage_failures_default_and_indexed wEnvFail wMedia0
    ⟨10, 20⟩ _ rfl rfl
  obtain ⟨hs, mf, _, _, _, _, hobj, hcap, hocr⟩ := h
  exact ⟨hs, hobj "yolo boom" rfl, hcap "blip boom" rfl, (hocr "ocr boom" rfl).1⟩

/-! ## Theorems: objects description string -/

/-- Sorting after removing duplicates gives the same list as removing
duplicates after sorting: both are the sorted list of distinct names. -/
theorem insertionSort_dedup_comm (l : List String) :
    List.insertionSort (· ≤ ·) l.dedup = (List.insertionSort (· ≤ ·) l).dedup := by
  exact List.eq_of_perm_of_sorted
    ((List.perm_insertionSort (· ≤ ·) l.dedup).trans
      ((List.perm_insertionSort (· ≤ ·) l).dedup).symm)
    (List.sorted_insertionSort (· ≤ ·) l.dedup)
    (List.Pairwise.sublist (List.dedup_sublist _) (List.sorted_insertionSort (· ≤ ·) l))

/-- C7: the objects string is empty for an empty detection list, equals
the spec's "detected objects: " + comma-joined sorted unique class names
otherwise, and detections cat, dog, cat yield exactly
"detected objects: cat, dog". -/
theorem objects_description_correct :
    objects_text [⟨"cat", 1, []⟩, ⟨"dog", 1, []⟩, ⟨"cat", 1, []⟩]
      = "detected objects: cat, dog" ∧
    objects_text [] = "" ∧
    ∀ objects : List DetObj, objects_text objects = objects_description_spec objects := by
  refine ⟨?_, rfl, ?_⟩
  · have h : ¬ ("dog" ≤ "cat") := by
      rw [String.le_iff_toList_le]
      decide
    have hs : sortedUniqueNames ["cat", "dog", "cat"] = ["cat", "dog"] := by
      unfold sortedUniqueNames
      have hd : List.dedup ["cat", "dog", "cat"] = ["dog", "cat"] := rfl
      rw [hd]
      simp [List.insertionSort, List.orderedInsert, h]
    unfold objects_text
    simp only [List.map]
    rw [show (["cat", "dog", "cat"] : List String).isEmpty = false from rfl]
    rw [hs]
    rfl
  · intro objects
    unfold objects_text objects_description_spec sortedUniqueNames
    by_cases h : (objects.map (·.cls)).isEmpty
    · simp [h]
    · simp only [h, if_false]
      rw [insertionSort_dedup_comm]

/-! ## Theorems: batch clustering job -/

/-- C10: with fewer than 5 indexed-with-embedding records the clustering
job returns early, leaving the store untouched and producing no info,
whatever `min_cluster_size` is configured; the configured default is 2. -/
theorem cluster_job_early_return {n : Nat} (hdbscan : List (Vec n) → List Int)
    (mcs : Nat) (db : DB n)
    (hfew : (indexedWithVector db).length < 5) :
    cluster_images hdbscan mcs db = (db, none) ∧ MIN_CLUSTER_SIZE = 2 := by
  constructor
  · unfold cluster_images
    simp [hfew]
  · rfl

/-- C10 witness: four indexed records are below the floor even though
they satisfy the configured `MIN_CLUSTER_SIZE` of 2. -/
theorem cluster_job_early_return_witness :
    cluster_images wHdbscanEmpty MIN_CLUSTER_SIZE db4 = (db4, none) :=
  (cluster_job_early_return wHdbscanEmpty MIN_CLUSTER_SIZE db4 (by decide)).1

/-- C9: after a clustering run each record's `cluster_id` is either
untouched or overwritten with a non-noise label; a record whose label in
the run is -1 (or which was not clustered at all) is returned exactly as
it was, stale `cluster_id` included. -/
theorem noise_label_keeps_cluster_id {n : Nat} (hdbscan : List (Vec n) → List Int)
    (mcs : Nat) (db : DB n) (j : Nat) (hj : j < db.media.length) :
    (cluster_images hdbscan mcs db).1.media.length = db.media.length ∧
    ∀ hj2 : j < (cluster_images hdbscan mcs db).1.media.length,
      (((cluster_images hdbscan mcs db).1.media.get ⟨j, hj2⟩).cluster_id
          = (db.media.get ⟨j, hj⟩).cluster_id ∨
        ∃ p, assignmentFor (indexedWithVector db)
            (cluster hdbscan mcs (embeddingsOf db)).1 (db.media.get ⟨j, hj⟩) = some p ∧
          p.2 ≠ -1 ∧
          ((cluster_images hdbscan mcs db).1.media.get ⟨j, hj2⟩).cluster_id = some p.2) ∧
      ((assignmentFor (indexedWithVector db)
            (cluster hdbscan mcs (embeddingsOf db)).1 (db.media.get ⟨j, hj⟩) = none ∨
          (∃ m2, assignmentFor (indexedWithVector db)
            (cluster hdbscan mcs (embeddingsOf db)).1 (db.media.get ⟨j, hj⟩)
            = some (m2, -1))) →
        (cluster_images hdbscan mcs db).1.media.get ⟨j, hj2⟩ = db.media.get ⟨j, hj⟩) := by
  by_cases hlen : (indexedWithVector db).length < 5
  · have hpost : cluster_images hdbscan mcs db = (db, none) := by
      unfold cluster_images
      simp [hlen]
    rw [hpost]
    exact ⟨rfl, fun hj2 => ⟨Or.inl rfl, fun _ => rfl⟩⟩
  · have hpost : (cluster_images hdbscan mcs db).1.media
        = db.media.map (assign_update (indexedWithVector db)
            (cluster hdbscan mcs (embeddingsOf db)).1) := by
      unfold cluster_images
      simp [hlen]
    rw [hpost]
    refine ⟨by simp, ?_⟩
    intro hj2
    have hget : (db.media.map (assign_update (indexedWithVector db)
          (cluster hdbscan mcs (embeddingsOf db)).1)).get ⟨j, hj2⟩
        = assign_update (indexedWithVector db)
            (cluster hdbscan mcs (embeddingsOf db)).1 (db.media.get ⟨j, hj⟩) := by
      rw [List.get_map]
    rw [hget]
    unfold assign_update
    cases hA : assignmentFor (indexedWithVector db)
        (cluster hdbscan mcs (embeddingsOf db)).1 (db.media.get ⟨j, hj⟩) with
    | none => exact ⟨Or.inl rfl, fun _ => rfl⟩
    | some p =>
      by_cases hp : p.2 = -1
      · refine ⟨Or.inl (by simp [hp]), fun _ => by simp [hp]⟩
      · refine ⟨Or.inr ⟨p, rfl, hp, by simp [hp]⟩, ?_⟩
        rintro (habs | ⟨m2, habs⟩)
        · exact absurd habs (by simp)
        · rw [Option.some.injEq] at habs
          exact absurd (congrArg Prod.snd habs) (by simpa using hp)

/-- C9 witness: in a five-record run where HDBSCAN marks the fifth record
as noise, that record keeps its stale `cluster_id` 9. -/
theorem noise_label_keeps_cluster_id_witness :
    (cluster_images wHdbscan5 2 db5).1.media.get? 4 = db5.media.get? 4 ∧
    (db5.media.get? 4).map Media.cluster_id = some (some 9) := by
  have h := noise_label_keeps_cluster_id wHdbscan5 2 db5 4 (by decide)
  have hlen : (cluster_images wHdbscan5 2 db5).1.media.length = db5.media.length := h.1
  have h2 : 4 < (cluster_images wHdbscan5 2 db5).1.media.length := by
    rw [hlen]
    decide
  have hA : assignmentFor (indexedWithVector db5)
      (cluster wHdbscan5 2 (embeddingsOf db5)).1 (db5.media.get ⟨4, by decide⟩)
      = some ({ mkIndexed 5 with cluster_id := some 9 }, -1) := rfl
  have hunch := (h.2 h2).2 (Or.inr ⟨{ mkIndexed 5 with cluster_id := some 9 }, hA⟩)
  constructor
  · rw [List.get?_eq_get h2, List.get?_eq_get (show 4 < db5.media.length by decide), hunch]
  · rfl

/-! ## Theorems: member-count bookkeeping (deletion and clustering run) -/

/-- Every cluster row left by the upsert fold either keeps the invariant
it had or gets its member count set to its member list's length. -/
theorem upsert_fold_inv {n : Nat} (media_ids : List Nat) (labels : List Int)
    (cents : List (Int × Vec n)) (cs : List (ClusterRec n))
    (h : ∀ c ∈ cs, c.member_count = c.member_ids.length) :
    ∀ c ∈ cents.foldl (upsertCluster media_ids labels) cs,
      c.member_count = c.member_ids.length := by
  induction cents generalizing cs with
  | nil => exact h
  | cons p ps ih =>
    refine ih _ ?_
    intro c hc
    simp only [upsertCluster] at hc
    by_cases hex : (cs.any (fun c => c.id == p.1)) = true
    · rw [if_pos hex] at hc
      obtain ⟨c0, hc0, rfl⟩ := List.mem_map.mp hc
      by_cases hid : c0.id = p.1
      · rw [if_pos hid]
      · rw [if_neg hid]
        exact h c0 hc0
    · rw [if_neg hex] at hc
      rcases List.mem_append.mp hc with hc2 | hc2
      · exact h c hc2
      · have hco := List.mem_singleton.mp hc2
        subst hco
        rfl

/-- Shape of `delete_image` when the media row is missing. -/
theorem delete_image_notfound_eq {n : Nat} (db : DB n) (storageOk : Bool)
    (media_id : Nat)
    (hfind : db.media.find? (fun m => m.id == media_id) = none) :
    delete_image db storageOk media_id = (db, 404) := by
  unfold delete_image
  rw [hfind]

/-- Shape of `delete_image` when storage deletion fails: HTTP 500 and no
database change. -/
theorem delete_image_storagefail_eq {n : Nat} (db : DB n) (media_id : Nat)
    (m : Media n)
    (hfind : db.media.find? (fun m => m.id == media_id) = some m) :
    delete_image db false media_id = (db, 500) := by
  unfold delete_image
  rw [hfind]
  rfl

/-- Shape of a successful `delete_image`: the media row is erased and the
id is filtered out of every cluster that contains it, with the count
reset. -/
theorem delete_image_found_eq {n : Nat} (db : DB n) (media_id : Nat)
    (m : Media n)
    (hfind : db.media.find? (fun m => m.id == media_id) = some m) :
    delete_image db true media_id =
      ({ media := db.media.eraseP (fun m => m.id == media_id)
         clusters := db.clusters.map (fun c =>
           if media_id ∈ c.member_ids then
             { c with
                 member_ids := c.member_ids.filter (fun x => x ≠ media_id)
                 member_count :=
                   (c.member_ids.filter (fun x => x ≠ media_id)).length }
           else c) }, 200) := by
  unfold delete_image
  rw [hfind]
  rfl

/-- C8: both writers of cluster member lists preserve the
`member_count = member_ids.length` invariant; deletion in particular
removes the deleted id from every cluster's member list and resets the
count to the shortened list's length, leaving other clusters untouched. -/
theorem member_count_matches_members {n : Nat} (db : DB n) (storageOk : Bool)
    (media_id : Nat) :
    (InvDB db → InvDB (delete_image db storageOk media_id).1) ∧
    (∀ hdbscan mcs, InvDB db → InvDB (cluster_images hdbscan mcs db).1) ∧
    ((db.media.find? (fun m => m.id == media_id)).isSome = true →
      (∀ c ∈ (delete_image db true media_id).1.clusters, media_id ∉ c.member_ids) ∧
      (delete_image db true media_id).1.clusters.length = db.clusters.length ∧
      ∀ j (hj : j < db.clusters.length)
          (hj2 : j < (delete_image db true media_id).1.clusters.length),
        (media_id ∈ (db.clusters.get ⟨j, hj⟩).member_ids →
          ((delete_image db true media_id).1.clusters.get ⟨j, hj2⟩).member_ids
            = (db.clusters.get ⟨j, hj⟩).member_ids.filter (fun x => x ≠ media_id) ∧
          ((delete_image db true media_id).1.clusters.get ⟨j, hj2⟩).member_count
            = ((delete_image db true media_id).1.clusters.get ⟨j, hj2⟩).member_ids.length) ∧
        (media_id ∉ (db.clusters.get ⟨j, hj⟩).member_ids →
          (delete_image db true media_id).1.clusters.get ⟨j, hj2⟩
            = db.clusters.get ⟨j, hj⟩)) := by
  refine ⟨?_, ?_, ?_⟩
  · intro hinv
    cases hfind : db.media.find? (fun m => m.id == media_id) with
    | none =>
      rw [delete_image_notfound_eq db storageOk media_id hfind]
      exact hinv
    | some m =>
      cases storageOk with
      | false =>
        rw [delete_image_storagefail_eq db media_id m hfind]
        exact hinv
      | true =>
        rw [delete_image_found_eq db media_id m hfind]
        intro c hc
        obtain ⟨c0, hc0, rfl⟩ := List.mem_map.mp hc
        by_cases hmem : media_id ∈ c0.member_ids
        · rw [if_pos hmem]
        · rw [if_neg hmem]
          exact hinv c0 hc0
  · intro hdbscan mcs hinv
    by_cases hlen : (indexedWithVector db).length < 5
    · have hpost : cluster_images hdbscan mcs db = (db, none) := by
        unfold cluster_images
        simp [hlen]
      rw [hpost]
      exact hinv
    · have hpost : (cluster_images hdbscan mcs db).1.clusters
          = (compute_centroids (embeddingsOf db)
              (cluster hdbscan mcs (embeddingsOf db)).1).foldl
            (upsertCluster ((indexedWithVector db).map (fun m => m.id))
              (cluster hdbscan mcs (embeddingsOf db)).1) db.clusters := by
        unfold cluster_images
        simp [hlen]
      intro c hc
      rw [hpost] at hc
      exact upsert_fold_inv _ _ _ _ hinv c hc
  · intro hfound
    cases hfind : db.media.find? (fun m => m.id == media_id) with
    | none =>
      rw [hfind] at hfound
      simp at hfound
    | some m =>
      have hpost : (delete_image db true media_id).1.clusters
          = db.clusters.map (fun c =>
              if media_id ∈ c.member_ids then
                { c with
                    member_ids := c.member_ids.filter (fun x => x ≠ media_id)
                    member_count :=
                      (c.member_ids.filter (fun x => x ≠ media_id)).length }
              else c) := by
        rw [delete_image_found_eq db media_id m hfind]
      refine ⟨?_, ?_, ?_⟩
      · intro c hc
        rw [hpost] at hc
        obtain ⟨c0, hc0, rfl⟩ := List.mem_map.mp hc
        by_cases hmem : media_id ∈ c0.member_ids
        · rw [if_pos hmem]
          intro habs
          have := (List.mem_filter.mp habs).2
          simp at this
        · rw [if_neg hmem]
          exact hmem
      · rw [hpost]
        simp
      · intro j hj hj2
        have hj3 : j < (db.clusters.map (fun c =>
            if media_id ∈ c.member_ids then
              { c with
                  member_ids := c.member_ids.filter (fun x => x ≠ media_id)
                  member_count :=
                    (c.member_ids.filter (fun x => x ≠ media_id)).length }
            else c)).length := by
          simpa using hj
        have hq : (delete_image db true media_id).1.clusters.get? j
            = some (if media_id ∈ (db.clusters.get ⟨j, hj⟩).member_ids then
                { db.clusters.get ⟨j, hj⟩ with
                    member_ids := (db.clusters.get ⟨j, hj⟩).member_ids.filter
                      (fun x => x ≠ media_id)
                    member_count := ((db.clusters.get ⟨j, hj⟩).member_ids.filter
                      (fun x => x ≠ media_id)).length }
              else db.clusters.get ⟨j, hj⟩) := by
          rw [hpost, List.get?_eq_get hj3, List.get_map]
        have hq2 : (delete_image db true media_id).1.clusters.get? j
            = some ((delete_image db true media_id).1.clusters.get ⟨j, hj2⟩) :=
          List.get?_eq_get hj2
        have hget := Option.some.inj (hq2.symm.trans hq)
        constructor
        · intro hmem
          rw [hget, if_pos hmem]
          exact ⟨rfl, rfl⟩
        · intro hmem
          rw [hget, if_neg hmem]

/-- C8 witness: deleting media 3 from a store where cluster 0 has members
[3, 4, 5] and count 3 keeps the invariant, removes 3 everywhere, and
leaves members [4, 5] with count 2; the clustering job also keeps the
invariant. -/
theorem member_count_matches_members_witness :
    InvDB (delete_image dbDel true 3).1 ∧
    (∀ c ∈ (delete_image dbDel true 3).1.clusters, 3 ∉ c.member_ids) ∧
    InvDB (cluster_images wHdbscanEmpty 2 dbDel).1 ∧
    ((delete_image dbDel true 3).1.clusters.get? 0).map ClusterRec.member_ids
      = some [4, 5] ∧
    ((delete_image dbDel true 3).1.clusters.get? 0).map ClusterRec.member_count
      = some 2 := by
  have h := member_count_matches_members dbDel true 3
  have hinv : InvDB dbDel := by
    intro c hc
    simp only [dbDel] at hc
    rw [List.mem_singleton] at hc
    subst hc
    rfl
  have hfound : (dbDel.media.find? (fun m => m.id == 3)).isSome = true := rfl
  exact ⟨h.1 hinv, (h.2.2 hfound).1, h.2.1 wHdbscanEmpty 2 hinv, rfl, rfl⟩

/-! ## Theorems: incremental cluster assignment -/

/-- The best-similarity fold is unchanged when no candidate beats the
running best. -/
theorem foldl_assignStep_const {n : Nat} (e : Vec n) (l : List (Int × Vec n))
    (b : ℝ × Int) (h : ∀ p ∈ l, dot e p.2 ≤ b.1) :
    l.foldl (assignStep e) b = b := by
  induction l with
  | nil => rfl
  | cons q qs ih =>
    have hq : ¬ (b.1 < dot e q.2) := not_lt.mpr (h q (List.mem_cons_self q qs))
    rw [List.foldl_cons]
    rw [show assignStep e b q = b from if_neg hq]
    exact ih fun p hp => h p (List.mem_cons_of_mem q hp)

/-- The best similarity stays below any bound dominating the start value
and every candidate. -/
theorem foldl_assignStep_lt {n : Nat} (e : Vec n) (l : List (Int × Vec n))
    (b : ℝ × Int) (x : ℝ) (hb : b.1 < x) (h : ∀ p ∈ l, dot e p.2 < x) :
    (l.foldl (assignStep e) b).1 < x := by
  induction l generalizing b with
  | nil => exact hb
  | cons q qs ih =>
    rw [List.foldl_cons]
    refine ih (assignStep e b q) ?_ fun p hp => h p (List.mem_cons_of_mem q hp)
    unfold assignStep
    by_cases hlt : b.1 < dot e q.2
    · rw [if_pos hlt]
      exact h q (List.mem_cons_self q qs)
    · rw [if_neg hlt]
      exact hb

/-- The fold lands exactly on the first centroid achieving the maximum
similarity, provided that maximum beats the -1 start value. -/
theorem foldl_assignStep_max {n : Nat} (e : Vec n) (pre : List (Int × Vec n))
    (c : Int × Vec n) (post : List (Int × Vec n))
    (hpre : ∀ p ∈ pre, dot e p.2 < dot e c.2)
    (hpost : ∀ p ∈ post, dot e p.2 ≤ dot e c.2)
    (hgt : (-1 : ℝ) < dot e c.2) :
    (pre ++ c :: post).foldl (assignStep e) (-1, -1) = (dot e c.2, c.1) := by
  rw [List.foldl_append, List.foldl_cons]
  have h1 : (pre.foldl (assignStep e) (-1, -1)).1 < dot e c.2 :=
    foldl_assignStep_lt e pre (-1, -1) _ hgt hpre
  rw [show assignStep e (pre.foldl (assignStep e) (-1, -1)) c = (dot e c.2, c.1)
    from if_pos h1]
  exact foldl_assignStep_const e post _ hpost

/-- C4 (amended): `assign_to_cluster` returns -1 on an empty centroid map
or when every similarity is below the threshold; when some centroid's
similarity exceeds -1, it returns the label of the first centroid
achieving the maximum similarity if that maximum reaches the threshold.
(When every similarity is exactly -1 the sentinel start value wins and -1
is returned even if the threshold is met; see the counterexample.) -/
theorem assign_to_cluster_amended {n : Nat} (embedding : Vec n)
    (centroids : List (Int × Vec n)) (threshold : ℝ) :
    (centroids = [] → assign_to_cluster embedding centroids threshold = -1) ∧
    ((∀ p ∈ centroids, dot (normalize embedding) p.2 < threshold) →
      assign_to_cluster embedding centroids threshold = -1) ∧
    (∀ pre c post, centroids = pre ++ c :: post →
      (∀ p ∈ pre, dot (normalize embedding) p.2 < dot (normalize embedding) c.2) →
      (∀ p ∈ post, dot (normalize embedding) p.2 ≤ dot (normalize embedding) c.2) →
      (-1 : ℝ) < dot (normalize embedding) c.2 →
      threshold ≤ dot (normalize embedding) c.2 →
      assign_to_cluster embedding centroids threshold = c.1) := by
  refine ⟨?_, ?_, ?_⟩
  · intro h
    subst h
    rfl
  · intro hall
    cases centroids with
    | nil => rfl
    | cons q qs =>
      simp only [assign_to_cluster, List.isEmpty_cons, if_false, Bool.false_eq_true]
      by_cases hθ : (-1 : ℝ) < threshold
      · have hlt := foldl_assignStep_lt (normalize embedding) (q :: qs) (-1, -1)
          threshold hθ hall
        rw [if_pos hlt]
      · have hconst := foldl_assignStep_const (normalize embedding) (q :: qs) (-1, -1)
          (fun p hp => le_trans (le_of_lt (hall p hp)) (not_lt.mp hθ))
        rw [hconst]
        rw [if_neg hθ]
  · intro pre c post hsplit hpre hpost hgt hθ
    subst hsplit
    have hempty : (pre ++ c :: post).isEmpty = false := by
      cases pre <;> rfl
    simp only [assign_to_cluster, hempty, if_false, Bool.false_eq_true]
    rw [foldl_assignStep_max (normalize embedding) pre c post hpre hpost hgt]
    rw [if_neg (not_lt.mpr hθ)]

/-- C4 counterexample: the query [1] against the single centroid
labelled 7 holding [-1] with threshold -1: the only similarity is -1,
which is not below the threshold, so the claim as stated demands label 7,
but the code returns -1 because the sentinel start value is never beaten. -/
theorem assign_to_cluster_counterexample :
    dot (normalize wOne) wNegOne = -1 ∧
    ¬ (dot (normalize wOne) wNegOne < (-1 : ℝ)) ∧
    assign_to_cluster wOne [(7, wNegOne)] (-1) = -1 := by
  have h1 : dot wOne wOne = 1 := by
    simp [dot, wOne]
  have h2 : norm wOne = 1 := by
    rw [norm, h1, Real.sqrt_one]
  have hd : dot (normalize wOne) wNegOne = -1 := by
    simp [dot, normalize, h2, wOne, wNegOne]
  refine ⟨hd, by rw [hd]; exact lt_irrefl _, ?_⟩
  have hstep : assignStep (normalize wOne) (-1, -1) (7, wNegOne) = (-1, -1) := by
    unfold assignStep
    rw [hd]
    exact if_neg (lt_irrefl _)
  simp only [assign_to_cluster, List.isEmpty_cons, if_false, Bool.false_eq_true,
    List.foldl_cons, List.foldl_nil, hstep]
  rw [if_neg (lt_irrefl _)]

/-- C4 witness: with centroids labelled 3 (similarity 1) then 5
(similarity 0) and threshold 1/2, the first maximum wins: label 3. -/
theorem assign_to_cluster_amended_witness :
    assign_to_cluster wOne [(3, wOne), (5, wZero)] (1 / 2) = 3 := by
  have h1 : dot wOne wOne = 1 := by
    simp [dot, wOne]
  have h2 : norm wOne = 1 := by
    rw [norm, h1, Real.sqrt_one]
  have hdot1 : dot (normalize wOne) wOne = 1 := by
    simp [dot, normalize, h2, wOne]
  have hdot0 : dot (normalize wOne) wZero = 0 := by
    simp [dot, normalize, h2, wOne, wZero]
  have h := (assign_to_cluster_amended wOne [(3, wOne), (5, wZero)] (1 / 2)).2.2
    [] (3, wOne) [(5, wZero)] rfl
    (fun p hp => absurd hp (List.not_mem_nil p))
    (fun p hp => by
      rw [List.mem_singleton] at hp
      subst hp
      rw [hdot0, hdot1]
      norm_num)
    (by rw [hdot1]; norm_num)
    (by rw [hdot1]; norm_num)
  exact h

/-! ## Theorems: search endpoint -/

/-- C5: search results contain only indexed records with a stored vector
and similarity strictly above the threshold (in particular never failed
records), scored by the stored vector; at most `limit` of them, ordered
by similarity descending. -/
theorem search_results_filtered_sorted_limited {n : Nat} (db : List (Media n))
    (qv : Vec n) (limit : Nat) :
    (∀ p ∈ search_images db qv limit,
      p.1 ∈ db ∧ p.1.status = Status.indexed ∧ p.1.status ≠ Status.failed ∧
      p.1.vector.isSome = true ∧ search_threshold < p.2 ∧
      ∀ v, p.1.vector = some v → p.2 = similarity qv v) ∧
    (search_images db qv limit).length ≤ limit ∧
    List.Sorted (simDesc n) (search_images db qv limit) := by
  refine ⟨?_, ?_, ?_⟩
  · intro p hp
    have hp2 : p ∈ (db.filterMap (fun m =>
        match m.vector with
        | some v => if m.status = Status.indexed then some (m, similarity qv v) else none
        | none => none)).filter (fun p => decide (search_threshold < p.2)) := by
      have := List.mem_of_mem_take hp
      rwa [List.mem_insertionSort] at this
    rw [List.mem_filter] at hp2
    obtain ⟨hp3, hpth⟩ := hp2
    rw [List.mem_filterMap] at hp3
    obtain ⟨m, hm, hfm⟩ := hp3
    cases hv : m.vector with
    | none =>
      rw [hv] at hfm
      exact absurd hfm (by simp)
    | some v =>
      rw [hv] at hfm
      dsimp only at hfm
      by_cases hst : m.status = Status.indexed
      · rw [if_pos hst] at hfm
        obtain rfl := Option.some.inj hfm
        refine ⟨hm, hst, ?_, ?_, of_decide_eq_true hpth, ?_⟩
        · rw [hst]
          intro habs
          cases habs
        · rw [hv]
          rfl
        · intro v2 hv2
          rw [hv] at hv2
          obtain rfl := Option.some.inj hv2
          rfl
      · rw [if_neg hst] at hfm
        exact absurd hfm (by simp)
  · simp only [search_images]
    rw [List.length_take]
    exact min_le_left _ _
  · exact List.Pairwise.sublist (List.take_sublist _ _)
      (List.sorted_insertionSort (simDesc n) _)

/-- C5 witness: one indexed record with vector [1] and query [1]: its
similarity 1 beats the 0.45 threshold and the result list fits in the
limit. -/
theorem search_results_filtered_sorted_limited_witness :
    search_threshold < (1 : ℝ) ∧
    (search_images [mkIndexed 1] wOne 5).length ≤ 5 := by
  have h1 : dot wOne wOne = 1 := by
    simp [dot, wOne]
  have h2 : norm wOne = 1 := by
    rw [norm, h1, Real.sqrt_one]
  have hsim : similarity wOne wOne = 1 := by
    rw [similarity, cosineDistance, h1, h2]
    norm_num
  have hth1 : search_threshold < (1 : ℝ) := by
    unfold search_threshold
    norm_num
  have hr : search_images [mkIndexed 1] wOne 5 = [(mkIndexed 1, (1 : ℝ))] := by
    simp [search_images, mkIndexed, wMedia0, hsim, hth1,
      List.insertionSort, List.orderedInsert]
  have h := (search_results_filtered_sorted_limited [mkIndexed 1] wOne 5).1
    (mkIndexed 1, (1 : ℝ)) (by rw [hr]; exact List.mem_singleton.mpr rfl)
  exact ⟨h.2.2.2.2.1, (search_results_filtered_sorted_limited [mkIndexed 1] wOne 5).2.1⟩

/-! ## Theorems: clustering statistics -/

/-- Looking up a key present in a keyed map of this shape returns its
image, whichever occurrence comes first. -/
theorem lookup_map_self (ks : List Int) (f : Int → Int) (l : Int) (hl : l ∈ ks) :
    List.lookup l (ks.map (fun k => (k, f k))) = some (f l) := by
  induction ks with
  | nil => cases hl
  | cons k ks ih =>
    rw [List.map_cons]
    by_cases hk : l = k
    · subst hk
      simp [List.lookup]
    · have hbeq : (l == k) = false := beq_eq_false_iff_ne.mpr hk
      rw [List.lookup_cons]
      simp only [hbeq]
      exact ih ((List.mem_cons.mp hl).resolve_left hk)

/-- C6 (amended): a batch smaller than `min_cluster_size` yields all
noise labels and an info dict reporting zero clusters, but that dict
carries only the cluster and noise counts; total count and per-cluster
sizes are present exactly on the non-degenerate path, where the sizes
dict maps every non-noise label to its member count. -/
theorem cluster_stats_amended {n : Nat} (hdbscan : List (Vec n) → List Int)
    (min_cluster_size : Nat) (embeddings : List (Vec n)) :
    (embeddings.length < min_cluster_size →
      (cluster hdbscan min_cluster_size embeddings).1
        = List.replicate embeddings.length (-1) ∧
      List.lookup "n_clusters" (cluster hdbscan min_cluster_size embeddings).2
        = some (InfoVal.num 0) ∧
      List.lookup "noise_points" (cluster hdbscan min_cluster_size embeddings).2
        = some (InfoVal.num embeddings.length) ∧
      List.lookup "total_points" (cluster hdbscan min_cluster_size embeddings).2
        = none ∧
      List.lookup "cluster_sizes" (cluster hdbscan min_cluster_size embeddings).2
        = none) ∧
    (List.lookup "n_clusters" (cluster hdbscan min_cluster_size embeddings).2).isSome
      = true ∧
    (List.lookup "noise_points" (cluster hdbscan min_cluster_size embeddings).2).isSome
      = true ∧
    (min_cluster_size ≤ embeddings.length →
      (cluster hdbscan min_cluster_size embeddings).1 = hdbscan embeddings ∧
      List.lookup "total_points" (cluster hdbscan min_cluster_size embeddings).2
        = some (InfoVal.num embeddings.length) ∧
      List.lookup "cluster_sizes" (cluster hdbscan min_cluster_size embeddings).2
        = some (InfoVal.dict (clusterSizes (hdbscan embeddings))) ∧
      ∀ l ∈ hdbscan embeddings, l ≠ -1 →
        List.lookup l (clusterSizes (hdbscan embeddings))
          = some ((hdbscan embeddings).count l)) := by
  by_cases hlt : embeddings.length < min_cluster_size
  · have hc : cluster hdbscan min_cluster_size embeddings
        = (List.replicate embeddings.length (-1),
           [("n_clusters", InfoVal.num 0),
            ("noise_points", InfoVal.num embeddings.length)]) := by
      unfold cluster
      rw [if_pos hlt]
    rw [hc]
    refine ⟨fun _ => ⟨rfl, rfl, rfl, rfl, rfl⟩, rfl, rfl, fun hge => ?_⟩
    exact absurd hge (not_le.mpr hlt)
  · have hc : cluster hdbscan min_cluster_size embeddings
        = (hdbscan embeddings,
           [("n_clusters", InfoVal.num
              ((hdbscan embeddings).dedup.length
                - (if (-1) ∈ hdbscan embeddings then 1 else 0))),
            ("noise_points", InfoVal.num ((hdbscan embeddings).count (-1))),
            ("total_points", InfoVal.num embeddings.length),
            ("cluster_sizes", InfoVal.dict (clusterSizes (hdbscan embeddings)))]) := by
      unfold cluster
      rw [if_neg hlt]
    rw [hc]
    refine ⟨fun habs => absurd habs hlt, rfl, rfl, fun _ => ⟨rfl, rfl, rfl, ?_⟩⟩
    intro l hl hne
    unfold clusterSizes
    have hmem : l ∈ (hdbscan embeddings).dedup.filter (fun l => l ≠ -1) := by
      rw [List.mem_filter]
      exact ⟨List.mem_dedup.mpr hl, by simpa using hne⟩
    exact lookup_map_self _ _ l hmem

/-- C6 counterexample: a one-element batch with `min_cluster_size` 2
returns statistics that do report zero clusters but contain neither a
total count nor per-cluster member counts, contradicting the claim that
those are always included. -/
theorem cluster_stats_counterexample :
    List.lookup "n_clusters" (cluster wHdbscanEmpty 2 [wZero]).2
      = some (InfoVal.num 0) ∧
    List.lookup "total_points" (cluster wHdbscanEmpty 2 [wZero]).2 = none ∧
    List.lookup "cluster_sizes" (cluster wHdbscanEmpty 2 [wZero]).2 = none :=
  ⟨rfl, rfl, rfl⟩

/-- C6 witness: the small-batch branch on a singleton batch, and the
normal branch on a two-element batch. -/
theorem cluster_stats_amended_witness :
    (cluster wHdbscanEmpty 2 [wZero]).1 = List.replicate 1 (-1) ∧
    List.lookup "noise_points" (cluster wHdbscanEmpty 2 [wZero]).2
      = some (InfoVal.num 1) ∧
    List.lookup "total_points" (cluster wHdbscanEmpty 2 [wZero, wZero]).2
      = some (InfoVal.num 2) := by
  have hs := (cluster_stats_amended wHdbscanEmpty 2 [wZero]).1 (by decide)
  have hb := (cluster_stats_amended wHdbscanEmpty 2 [wZero, wZero]).2.2.2 (by decide)
  exact ⟨hs.1, hs.2.2.1, hb.2.1⟩

end Find
